import Mathlib

/-!
Verification development for the Testinfotecs repository.

The repository ships a Conan recipe (`conanfile.py`) for a client-server
system; the specification describes the communication engine (frame codec,
connection, session registry, dispatcher, client) that the recipe builds.
The recipe itself is embedded directly from `src/conanfile.py`.  The engine
components are not present under `src/`, so they are modelled from the
specification, as marked on each definition.
-/

/-! ## Frame codec

Modelled from the spec: wire format is a 4-byte big-endian unsigned payload
length followed by a 2-byte big-endian unsigned message type, then exactly
`length` opaque payload bytes.  Bytes are modelled as natural numbers below
256 produced by the encoder. -/

/-- Big-endian 4-byte encoding of a 32-bit length (16777216 = 2^24,
65536 = 2^16). -/
def be32 (n : Nat) : List Nat :=
  [n / 16777216 % 256, n / 65536 % 256, n / 256 % 256, n % 256]

/-- Big-endian 2-byte encoding of a 16-bit message type. -/
def be16 (n : Nat) : List Nat :=
  [n / 256 % 256, n % 256]

/-- Big-endian interpretation of a byte list. -/
def fromBE (bs : List Nat) : Nat :=
  bs.foldl (fun a b => a * 256 + b) 0

/-- Modelled from the spec: a decoded Frame, `{length, type, payload}` with
`length` implicit as `payload.length`. -/
structure Frame where
  type : Nat
  payload : List Nat
  deriving DecidableEq

/-- The raw bytes of one frame: length header, type header, payload. -/
def encodeBytes (ty : Nat) (payload : List Nat) : List Nat :=
  be32 payload.length ++ (be16 ty ++ payload)

/-- Modelled from the spec: `encode(type, payload)` produces a well-formed
frame; payloads exceeding the configured maximum are never produced without
explicit override. -/
def encode (maxFrame : Nat) (override : Bool) (ty : Nat) (payload : List Nat) :
    Option (List Nat) :=
  if payload.length ≤ maxFrame ∨ override = true then
    some (encodeBytes ty payload)
  else
    none

/-- Result of one decode step: a complete frame plus the unconsumed rest of
the buffer, a request for more bytes, or the connection-fatal
`FrameTooLarge` error. -/
inductive DecodeResult where
  | frame (f : Frame) (rest : List Nat)
  | needMoreData
  | frameTooLarge
  deriving DecidableEq

/-- Modelled from the spec: `decode(buffer)` consumes a prefix of the
buffer; a declared length above the maximum frame size is rejected as
`FrameTooLarge` before any payload is consumed. -/
def decode (maxFrame : Nat) (buf : List Nat) : DecodeResult :=
  if buf.length < 6 then
    DecodeResult.needMoreData
  else if maxFrame < fromBE (buf.take 4) then
    DecodeResult.frameTooLarge
  else if buf.length < 6 + fromBE (buf.take 4) then
    DecodeResult.needMoreData
  else
    DecodeResult.frame
      ⟨fromBE ((buf.drop 4).take 2), (buf.drop 6).take (fromBE (buf.take 4))⟩
      (buf.drop (6 + fromBE (buf.take 4)))

theorem be32_length (n : Nat) : (be32 n).length = 4 := rfl

theorem be16_length (n : Nat) : (be16 n).length = 2 := rfl

theorem fromBE_be32 (n : Nat) (h : n < 4294967296) : fromBE (be32 n) = n := by
  simp only [fromBE, be32, List.foldl]
  omega

theorem fromBE_be16 (n : Nat) (h : n < 65536) : fromBE (be16 n) = n := by
  simp only [fromBE, be16, List.foldl]
  omega

theorem encodeBytes_length (ty : Nat) (payload : List Nat) :
    (encodeBytes ty payload).length = 6 + payload.length := by
  simp [encodeBytes, be32, be16]
  omega

/-- Decoding a buffer that starts with an encoded frame recovers exactly that
frame and leaves the rest of the buffer unconsumed. -/
theorem decode_encodeBytes (maxFrame ty : Nat) (payload rest : List Nat)
    (hlen : payload.length ≤ maxFrame) (hty : ty < 65536)
    (h32 : payload.length < 4294967296) :
    decode maxFrame (encodeBytes ty payload ++ rest) =
      DecodeResult.frame ⟨ty, payload⟩ rest := by
  have hbuf : encodeBytes ty payload ++ rest =
      be32 payload.length ++ (be16 ty ++ (payload ++ rest)) := by
    simp [encodeBytes]
  have hlen6 : (encodeBytes ty payload ++ rest).length =
      6 + payload.length + rest.length := by
    simp [encodeBytes_length]
  have htake4 : (encodeBytes ty payload ++ rest).take 4 = be32 payload.length := by
    rw [hbuf]
    have := List.take_left (be32 payload.length) (be16 ty ++ (payload ++ rest))
    simpa [be32_length] using this
  have hdrop4 : (encodeBytes ty payload ++ rest).drop 4 =
      be16 ty ++ (payload ++ rest) := by
    rw [hbuf]
    have := List.drop_left (be32 payload.length) (be16 ty ++ (payload ++ rest))
    simpa [be32_length] using this
  have htake2 : ((encodeBytes ty payload ++ rest).drop 4).take 2 = be16 ty := by
    rw [hdrop4]
    have := List.take_left (be16 ty) (payload ++ rest)
    simpa [be16_length] using this
  have hbuf6 : encodeBytes ty payload ++ rest =
      (be32 payload.length ++ be16 ty) ++ (payload ++ rest) := by
    simp [encodeBytes]
  have hlen46 : (be32 payload.length ++ be16 ty).length = 6 := by
    simp [be32_length, be16_length]
  have hdrop6 : (encodeBytes ty payload ++ rest).drop 6 = payload ++ rest := by
    rw [hbuf6]
    have := List.drop_left (be32 payload.length ++ be16 ty) (payload ++ rest)
    rwa [hlen46] at this
  have hbufP : encodeBytes ty payload ++ rest =
      ((be32 payload.length ++ be16 ty) ++ payload) ++ rest := by
    simp [encodeBytes]
  have hlenP : ((be32 payload.length ++ be16 ty) ++ payload).length =
      6 + payload.length := by
    simp [be32_length, be16_length]
    omega
  have hdropAll : (encodeBytes ty payload ++ rest).drop (6 + payload.length) =
      rest := by
    rw [hbufP]
    have := List.drop_left ((be32 payload.length ++ be16 ty) ++ payload) rest
    rwa [hlenP] at this
  unfold decode
  rw [htake4, fromBE_be32 payload.length h32]
  rw [if_neg (by omega)]
  rw [if_neg (by omega)]
  rw [if_neg (by omega)]
  rw [htake2, fromBE_be16 ty hty, hdrop6, hdropAll]
  congr 1
  have : payload.length ≤ (payload ++ rest).length := by
    simp
  simp [List.take_left]

/-! ## Connection

Modelled from the spec: a Connection owns one transport handle, a FIFO
write queue and a read buffer.  `send` enqueues, `close` is idempotent and
cancels pending writes while the transport teardown (`teardownDone`) may
still be completing asynchronously, and `onReadable` feeds the codec and
emits the decoded frames in order, closing on a decode error. -/

/-- Reason a connection was closed. -/
inductive CloseReason where
  | frameTooLarge
  | frameCorrupt
  | transportError
  | normal
  deriving DecidableEq

/-- Error surfaced by `send` on a closed connection. -/
inductive ConnError where
  | connectionClosed
  deriving DecidableEq

/-- Modelled from the spec: Connection state (transport handle ownership is
abstracted to the `teardownDone` flag of its asynchronous teardown). -/
structure Connection where
  closed : Bool
  closeReason : Option CloseReason
  writeQueue : List Frame
  readBuf : List Nat
  teardownDone : Bool
  deriving DecidableEq

/-- Modelled from the spec: `close(reason)` is idempotent, cancels pending
writes, and does not wait for the asynchronous transport teardown. -/
def Connection.close (c : Connection) (reason : CloseReason) : Connection :=
  if c.closed then
    c
  else
    { c with closed := true, closeReason := some reason, writeQueue := [] }

/-- Modelled from the spec: `send(frame)` enqueues bytes for asynchronous
FIFO flushing and fails with `ConnectionClosed` once the connection is
closed. -/
def Connection.send (c : Connection) (f : Frame) : Except ConnError Connection :=
  if c.closed then
    Except.error ConnError.connectionClosed
  else
    Except.ok { c with writeQueue := c.writeQueue ++ [f] }

/-- Sending that keeps the old state when `send` fails. -/
def Connection.sendOk (c : Connection) (f : Frame) : Connection :=
  match c.send f with
  | Except.ok c2 => c2
  | Except.error _ => c

/-- Send a whole sequence of frames in order. -/
def Connection.sendAll (c : Connection) (fs : List Frame) : Connection :=
  fs.foldl Connection.sendOk c

/-- Modelled from the spec: the asynchronous flush writes the queued frames
to the wire in FIFO order. -/
def Connection.flushBytes (c : Connection) : List Nat :=
  (c.writeQueue.map (fun f => encodeBytes f.type f.payload)).flatten

/-- Repeatedly decode complete frames out of a buffer; returns the decoded
frames in order, the unconsumed rest, and a close reason on decode error.
The fuel argument bounds the number of decode steps; each complete frame
consumes at least six bytes, so `buf.length` fuel always suffices. -/
def drain (maxFrame : Nat) : Nat → List Nat → List Frame × List Nat × Option CloseReason
  | 0, buf => ([], buf, none)
  | fuel + 1, buf =>
    match decode maxFrame buf with
    | DecodeResult.needMoreData => ([], buf, none)
    | DecodeResult.frameTooLarge => ([], buf, some CloseReason.frameTooLarge)
    | DecodeResult.frame f rest =>
      let r := drain maxFrame fuel rest
      (f :: r.1, r.2.1, r.2.2)

/-- Modelled from the spec: `onReadable()` appends the newly read bytes to
the connection's read buffer, feeds the codec, emits zero or more decoded
frames to the Dispatcher in order, and closes the connection on a decode
error without dispatching any part of the offending frame. -/
def Connection.onReadable (maxFrame : Nat) (c : Connection) (bytes : List Nat) :
    Connection × List Frame :=
  if c.closed then
    (c, [])
  else
    let buf := c.readBuf ++ bytes
    let r := drain maxFrame buf.length buf
    match r.2.2 with
    | some reason =>
      ({ c with closed := true, closeReason := some reason,
                readBuf := [], writeQueue := [] }, r.1)
    | none => ({ c with readBuf := r.2.1 }, r.1)

/-- Well-formedness of a frame with respect to a frame-size limit: payload
within the limit, type within 16 bits, length within 32 bits. -/
def FrameWF (maxFrame : Nat) (f : Frame) : Prop :=
  f.payload.length ≤ maxFrame ∧ f.type < 65536 ∧ f.payload.length < 4294967296

instance (maxFrame : Nat) (f : Frame) : Decidable (FrameWF maxFrame f) := by
  unfold FrameWF
  infer_instance

/-- The bytes of one frame on the wire. -/
def frameBytes (f : Frame) : List Nat :=
  encodeBytes f.type f.payload

/-- The wire contents of a frame sequence flushed in FIFO order. -/
def wireOf (fs : List Frame) : List Nat :=
  (fs.map frameBytes).flatten

theorem sendAll_writeQueue (fs : List Frame) (c : Connection)
    (hc : c.closed = false) :
    (c.sendAll fs).writeQueue = c.writeQueue ++ fs ∧ (c.sendAll fs).closed = false := by
  induction fs generalizing c with
  | nil => simp [Connection.sendAll, hc]
  | cons f fs ih =>
    have hstep : c.sendOk f =
        { c with writeQueue := c.writeQueue ++ [f] } := by
      simp [Connection.sendOk, Connection.send, hc]
    have hc2 : ({ c with writeQueue := c.writeQueue ++ [f] } : Connection).closed = false := hc
    have := ih { c with writeQueue := c.writeQueue ++ [f] } hc2
    simp only [Connection.sendAll, List.foldl_cons] at *
    rw [hstep]
    simpa using this

theorem wireOf_length_ge (fs : List Frame) : fs.length ≤ (wireOf fs).length := by
  induction fs with
  | nil => simp [wireOf]
  | cons f fs ih =>
    have hf : (frameBytes f).length = 6 + f.payload.length := by
      simp [frameBytes, encodeBytes_length]
    simp only [wireOf, List.map_cons, List.flatten_cons, List.length_append,
      List.length_cons]
    simp only [wireOf] at ih
    omega

theorem drain_wireOf (maxFrame : Nat) (fs : List Frame)
    (hwf : ∀ f ∈ fs, FrameWF maxFrame f) :
    ∀ fuel, fs.length ≤ fuel →
      drain maxFrame fuel (wireOf fs) = (fs, [], none) := by
  induction fs with
  | nil =>
    intro fuel _
    cases fuel with
    | zero => simp [drain, wireOf]
    | succ n => simp [drain, wireOf, decode]
  | cons f fs ih =>
    intro fuel hfuel
    cases fuel with
    | zero =>
      simp only [List.length_cons] at hfuel
      omega
    | succ n =>
      have hf : FrameWF maxFrame f := hwf f (by simp)
      have hdec : decode maxFrame (wireOf (f :: fs)) =
          DecodeResult.frame ⟨f.type, f.payload⟩ (wireOf fs) := by
        have : wireOf (f :: fs) = encodeBytes f.type f.payload ++ wireOf fs := by
          simp [wireOf, frameBytes]
        rw [this]
        exact decode_encodeBytes maxFrame f.type f.payload (wireOf fs)
          hf.1 hf.2.1 hf.2.2
      have hrec := ih (fun g hg => hwf g (by simp [hg])) n (by simpa using hfuel)
      simp only [drain, hdec, hrec]

/-! ## Session Registry

Modelled from the spec: a mapping ConnectionId → Session with unique keys;
`register` fails with `DuplicateId` when the id is present and leaves the
registry unchanged. -/

/-- Lifecycle states of a Session. -/
inductive SessionState where
  | connecting
  | established
  | closing
  | closedS
  deriving DecidableEq

/-- Modelled from the spec: a Session owns its Connection and carries its
ConnectionId and lifecycle state. -/
structure Session where
  id : Nat
  connection : Connection
  state : SessionState
  deriving DecidableEq

/-- Registry errors: invariant violations, never retried. -/
inductive RegError where
  | duplicateId
  | notFound
  deriving DecidableEq

/-- Modelled from the spec: `register(id, session)` fails with `DuplicateId`
when the id is already present; the pair is the operation result and the
registry afterwards. -/
def register (reg : List (Nat × Session)) (id : Nat) (s : Session) :
    Except RegError Unit × List (Nat × Session) :=
  if (reg.lookup id).isSome then
    (Except.error RegError.duplicateId, reg)
  else
    (Except.ok (), (id, s) :: reg)

/-- Modelled from the spec: `remove(id)` is idempotent. -/
def removeSession (reg : List (Nat × Session)) (id : Nat) :
    List (Nat × Session) :=
  reg.filter (fun e => e.1 ≠ id)

/-! ## Dispatcher: request correlation and connection close

Modelled from the spec: the Dispatcher owns a correlation table of
PendingRequests; closing a Connection resolves every unresolved
PendingRequest on it exactly once with `ConnectionClosed` (the write-once
result slot of an already resolved request is never touched), and a
response frame arriving on a closed connection is never dispatched. -/

/-- Outcome placed in a PendingRequest's write-once result slot. -/
inductive ROutcome where
  | success (payload : List Nat)
  | timeout
  | connectionClosed
  deriving DecidableEq

/-- Modelled from the spec: a PendingRequest; `result = none` means the
write-once slot is still empty. -/
structure PendingReq where
  requestId : Nat
  connId : Nat
  result : Option ROutcome
  deriving DecidableEq

/-- Modelled from the spec: Dispatcher state — the correlation table, the
set of connections already closed, and the responses dispatched to
callers. -/
structure DispState where
  pending : List PendingReq
  closedConns : List Nat
  dispatched : List (Nat × List Nat)
  deriving DecidableEq

/-- Modelled from the spec: closing a connection resolves every unresolved
PendingRequest on it with `ConnectionClosed`, touching no already-resolved
slot, and records the connection as closed. -/
def closeConn (s : DispState) (c : Nat) : DispState :=
  { pending := s.pending.map (fun p =>
      if p.connId = c ∧ p.result = none then
        { p with result := some ROutcome.connectionClosed }
      else p),
    closedConns := c :: s.closedConns,
    dispatched := s.dispatched }

/-- Modelled from the spec: a response frame arriving on a closed connection
is dropped; otherwise it resolves the matching unresolved PendingRequest
with success and is dispatched to the caller; a late response whose request
is already resolved is discarded. -/
def onResponse (s : DispState) (c reqId : Nat) (payload : List Nat) : DispState :=
  if c ∈ s.closedConns then
    s
  else if s.pending.any (fun p => p.requestId == reqId && p.result == none) then
    { pending := s.pending.map (fun p =>
        if p.requestId = reqId ∧ p.result = none then
          { p with result := some (ROutcome.success payload) }
        else p),
      closedConns := s.closedConns,
      dispatched := s.dispatched ++ [(reqId, payload)] }
  else
    s

/-! ## Dispatcher: call timeout

Modelled from the spec: `call()` creates a PendingRequest whose timer fires
when the deadline elapses; the Reactor delivers timer expiry before any
event carrying a later timestamp, so with no matching response before the
deadline the request resolves `Timeout`, and late responses for that id are
discarded. -/

/-- An event delivered to the Dispatcher for one outstanding call: a
response frame carrying a request id, or a reactor timer tick. -/
inductive DEvent where
  | resp (requestId : Nat) (payload : List Nat)
  | tick
  deriving DecidableEq

/-- State of one outstanding `call()`: the write-once result slot together
with its resolution time, and the payloads delivered to the caller. -/
structure CallState where
  result : Option (ROutcome × Nat)
  delivered : List (List Nat)
  deriving DecidableEq

/-- Modelled from the spec: processing one timestamped event for the call
with id `myId` and deadline `deadline`.  A resolved call discards every
later event (late responses for the id are dropped); an unresolved call
times out the moment any event at or after the deadline is delivered, since
the Reactor fires the timer first; before the deadline a matching response
resolves success and is delivered. -/
def callStep (deadline myId : Nat) (s : CallState) (ev : Nat × DEvent) : CallState :=
  match s.result with
  | some _ => s
  | none =>
    if deadline ≤ ev.1 then
      { s with result := some (ROutcome.timeout, ev.1) }
    else
      match ev.2 with
      | DEvent.resp id p =>
        if id = myId then
          { result := some (ROutcome.success p, ev.1),
            delivered := s.delivered ++ [p] }
        else s
      | DEvent.tick => s

/-- Run a whole event trace for one outstanding call. -/
def runCall (deadline myId : Nat) (trace : List (Nat × DEvent)) : CallState :=
  trace.foldl (callStep deadline myId) ⟨none, []⟩

/-! ## Client connect with retry

Modelled from the spec: `connect(address, retryPolicy)` attempts the
transport connect up to the configured maximum number of attempts; when
they are exhausted it surfaces `ConnectFailed` and the Client is in the
Disconnected state. -/

/-- Client lifecycle states. -/
inductive ClientState where
  | disconnected
  | connecting
  | connected
  | reconnecting
  deriving DecidableEq

/-- The error surfaced when the retry budget is exhausted. -/
inductive ConnectError where
  | connectFailed
  deriving DecidableEq

/-- Modelled from the spec: the bounded retry loop of `connect`; `transport`
reports whether attempt number `i` reaches the server, `n` is the remaining
attempt budget.  Exhausting the budget surfaces `ConnectFailed` with the
Client Disconnected; a successful attempt yields the Connected state. -/
def connectAttempts (transport : Nat → Bool) :
    Nat → Nat → Except ConnectError Unit × ClientState
  | 0, _ => (Except.error ConnectError.connectFailed, ClientState.disconnected)
  | n + 1, i =>
    if transport i then
      (Except.ok (), ClientState.connected)
    else
      connectAttempts transport n (i + 1)

/-! ## Conan recipe

Embedded from `src/conanfile.py`: the `ClientServer` recipe class.  Conan
invokes each method on a recipe instance configured with concrete values of
the declared settings `os`, `build_type`, `arch`; the methods are therefore
embedded as functions of those settings.  None of them inspects the
settings. -/

/-- The build configuration a Conan recipe instance is configured with. -/
structure Settings where
  os : String
  build_type : String
  arch : String
  deriving DecidableEq

/-- A dependency declaration made by a recipe method: `self.requires`,
`self.tool_requires` or `self.test_requires`. -/
inductive Requirement where
  | require (ref : String)
  | toolRequire (ref : String)
  | testRequire (ref : String)
  deriving DecidableEq

/-- Embedded from `src/conanfile.py`: `name = "client_server"`. -/
def ClientServer.name : String := "client_server"

/-- Embedded from `src/conanfile.py`: `version = "1.0"`. -/
def ClientServer.version : String := "1.0"

/-- Embedded from `src/conanfile.py`: `exports_sources = ["*"]`. -/
def ClientServer.exports_sources : List String := ["*"]

/-- Embedded from `src/conanfile.py`: `settings = "os", "build_type",
"arch"`. -/
def ClientServer.declaredSettings : List String := ["os", "build_type", "arch"]

/-- Embedded from `src/conanfile.py`: `requirements` declares
`self.requires("boost/1.90.0")` and nothing else, on every
configuration. -/
def ClientServer.requirements (_s : Settings) : List Requirement :=
  [Requirement.require ("boost/1.90.0")]

/-- Embedded from `src/conanfile.py`: `build_requirements` declares
`self.tool_requires("cmake/4.2.0")` and `self.test_requires("gtest/1.17.0")`
and nothing else, on every configuration. -/
def ClientServer.build_requirements (_s : Settings) : List Requirement :=
  [Requirement.toolRequire ("cmake/4.2.0"), Requirement.testRequire ("gtest/1.17.0")]

/-- Observable result of the `generate` method: whether `CMakeDeps` and
`CMakeToolchain` files were generated and which generator the toolchain was
given. -/
structure GenerateResult where
  depsGenerated : Bool
  toolchainGenerated : Bool
  generator : Option String
  deriving DecidableEq

/-- Embedded from `src/conanfile.py`: `generate` runs `CMakeDeps(self)
.generate()`, then builds a `CMakeToolchain(self)`, sets `tc.generator =
"Ninja"` and generates it, on every configuration. -/
def ClientServer.generate (_s : Settings) : GenerateResult :=
  { depsGenerated := true, toolchainGenerated := true,
    generator := some ("Ninja") }

/-! ## Claim theorems -/

/-- Claim C1: for every message type and every payload whose byte length is
at most the configured maximum frame size, decoding the bytes produced by
`encode(type, payload)` yields exactly `(type, payload)` (consuming only
that frame's prefix of the buffer); `encode` never produces a frame
exceeding the maximum without explicit override, and `decode` rejects a
frame whose declared length exceeds the maximum. -/
theorem codec_roundtrip (maxFrame ty : Nat) (payload rest : List Nat)
    (hty : ty < 65536) (h32 : payload.length < 4294967296) :
    (payload.length ≤ maxFrame →
      encode maxFrame false ty payload = some (encodeBytes ty payload) ∧
      decode maxFrame (encodeBytes ty payload ++ rest) =
        DecodeResult.frame ⟨ty, payload⟩ rest) ∧
    (maxFrame < payload.length → encode maxFrame false ty payload = none) ∧
    (∀ buf : List Nat, 6 ≤ buf.length → maxFrame < fromBE (buf.take 4) →
      decode maxFrame buf = DecodeResult.frameTooLarge) := by
  refine ⟨fun hle => ⟨?_, ?_⟩, fun hgt => ?_, fun buf hblen hbig => ?_⟩
  · simp [encode, hle]
  · exact decode_encodeBytes maxFrame ty payload rest hle hty h32
  · simp only [encode]
    rw [if_neg]
    simp only [Bool.false_eq_true, or_false]
    omega
  · unfold decode
    rw [if_neg (by omega), if_pos hbig]

/-- Witness for C1 at type 7, payload `[1, 2, 3]`, maximum frame size 10. -/
theorem codec_roundtrip_witness :
    ((([1, 2, 3] : List Nat).length ≤ 10 →
      encode 10 false 7 [1, 2, 3] = some (encodeBytes 7 [1, 2, 3]) ∧
      decode 10 (encodeBytes 7 [1, 2, 3] ++ [9]) =
        DecodeResult.frame ⟨7, [1, 2, 3]⟩ [9]) ∧
    (10 < ([1, 2, 3] : List Nat).length → encode 10 false 7 [1, 2, 3] = none) ∧
    (∀ buf : List Nat, 6 ≤ buf.length → 10 < fromBE (buf.take 4) →
      decode 10 buf = DecodeResult.frameTooLarge)) :=
  codec_roundtrip 10 7 [1, 2, 3] [9] (by decide) (by decide)

/-- Claim C4: whenever a received frame declares a payload length exceeding
the configured maximum frame size, the connection is closed with
`FrameTooLarge` and no part of that frame is dispatched. -/
theorem oversize_frame_closes (maxFrame : Nat) (c : Connection)
    (bytes : List Nat) (hopen : c.closed = false)
    (hblen : 6 ≤ (c.readBuf ++ bytes).length)
    (hbig : maxFrame < fromBE ((c.readBuf ++ bytes).take 4)) :
    Connection.onReadable maxFrame c bytes =
      ({ c with closed := true, closeReason := some CloseReason.frameTooLarge,
                readBuf := [], writeQueue := [] }, []) := by
  have hdec : decode maxFrame (c.readBuf ++ bytes) = DecodeResult.frameTooLarge := by
    unfold decode
    rw [if_neg (by omega), if_pos hbig]
  obtain ⟨n, hn⟩ : ∃ n, (c.readBuf ++ bytes).length = n + 1 :=
    ⟨(c.readBuf ++ bytes).length - 1, by omega⟩
  simp only [Connection.onReadable, hopen, Bool.false_eq_true, if_false, hn,
    drain, hdec]

/-- Witness for C4: a frame declaring a 20 MiB payload (20971520 bytes)
against a 16 MiB (16777216 bytes) limit closes a fresh connection with
`FrameTooLarge` and dispatches nothing. -/
theorem oversize_frame_closes_witness :
    Connection.onReadable 16777216 ⟨false, none, [], [], false⟩
        [1, 64, 0, 0, 0, 1] =
      (⟨true, some CloseReason.frameTooLarge, [], [], false⟩, []) :=
  oversize_frame_closes 16777216 ⟨false, none, [], [], false⟩
    [1, 64, 0, 0, 0, 1] rfl (by decide) (by decide)

/-- Claim C5: for every Session Registry state in which a ConnectionId is
already present, `register(id, session)` with that same id fails with
`DuplicateId` and the registry still maps the id to the originally
registered session. -/
theorem register_duplicate_id (reg : List (Nat × Session)) (id : Nat)
    (s1 s2 : Session) (h : reg.lookup id = some s1) :
    (register reg id s2).1 = Except.error RegError.duplicateId ∧
    ((register reg id s2).2).lookup id = some s1 := by
  have hsome : (reg.lookup id).isSome = true := by
    rw [h]
    rfl
  simp [register, hsome, h]

/-- Witness for C5: registering id 5 twice fails with `DuplicateId` and id 5
still maps to the first session. -/
theorem register_duplicate_id_witness :
    (register [(5, ⟨5, ⟨false, none, [], [], false⟩, SessionState.established⟩)]
        5 ⟨5, ⟨false, none, [], [], true⟩, SessionState.connecting⟩).1 =
      Except.error RegError.duplicateId ∧
    ((register [(5, ⟨5, ⟨false, none, [], [], false⟩, SessionState.established⟩)]
        5 ⟨5, ⟨false, none, [], [], true⟩, SessionState.connecting⟩).2).lookup 5 =
      some ⟨5, ⟨false, none, [], [], false⟩, SessionState.established⟩ :=
  register_duplicate_id
    [(5, ⟨5, ⟨false, none, [], [], false⟩, SessionState.established⟩)] 5
    ⟨5, ⟨false, none, [], [], false⟩, SessionState.established⟩
    ⟨5, ⟨false, none, [], [], true⟩, SessionState.connecting⟩ (by decide)

/-- Claim C7: `close(reason)` on a Connection is idempotent, and once close
has been invoked every subsequent `send` fails with `ConnectionClosed`,
while the asynchronous transport teardown state is untouched by close (so
the failure holds even while teardown is still completing). -/
theorem close_idempotent_send_fails (c : Connection) (r1 r2 : CloseReason)
    (f : Frame) :
    (c.close r1).close r2 = c.close r1 ∧
    (c.close r1).send f = Except.error ConnError.connectionClosed ∧
    (c.close r1).teardownDone = c.teardownDone := by
  cases hc : c.closed with
  | true => simp [Connection.close, Connection.send, hc]
  | false => simp [Connection.close, Connection.send, hc]

/-- Claim C8: with a retry budget of 3 attempts and an unreachable server,
`connect()` surfaces `ConnectFailed` after the third failed attempt and the
Client is in the Disconnected state. -/
theorem connect_retry_exhausted (transport : Nat → Bool)
    (h : ∀ i, transport i = false) :
    connectAttempts transport 3 0 =
      (Except.error ConnectError.connectFailed, ClientState.disconnected) := by
  simp [connectAttempts, h]

/-- Witness for C8 with the always-unreachable transport. -/
theorem connect_retry_exhausted_witness :
    connectAttempts (fun _ => false) 3 0 =
      (Except.error ConnectError.connectFailed, ClientState.disconnected) :=
  connect_retry_exhausted (fun _ => false) (fun _ => rfl)

/-- Claim C9: the recipe's dependency declarations are unconditional —
`requirements` declares exactly `boost/1.90.0` and `build_requirements`
declares exactly the tool requirement `cmake/4.2.0` and the test
requirement `gtest/1.17.0`, for every build configuration. -/
theorem recipe_dependencies (s : Settings) :
    ClientServer.requirements s = [Requirement.require ("boost/1.90.0")] ∧
    ClientServer.build_requirements s =
      [Requirement.toolRequire ("cmake/4.2.0"),
       Requirement.testRequire ("gtest/1.17.0")] :=
  ⟨rfl, rfl⟩

/-- Claim C10: the recipe is deterministic in the settings `os`,
`build_type`, `arch` — every method declares the same package identity and
dependencies on any two configurations, and `generate` always sets the
CMake toolchain generator to Ninja. -/
theorem recipe_deterministic (s1 s2 : Settings) :
    ClientServer.requirements s1 = ClientServer.requirements s2 ∧
    ClientServer.build_requirements s1 = ClientServer.build_requirements s2 ∧
    ClientServer.generate s1 = ClientServer.generate s2 ∧
    (ClientServer.generate s1).generator = some ("Ninja") ∧
    ClientServer.name = "client_server" ∧
    ClientServer.version = "1.0" ∧
    ClientServer.exports_sources = ["*"] :=
  ⟨rfl, rfl, rfl, rfl, rfl, rfl, rfl⟩

/-- Claim C2: for every sequence of well-formed frames sent via `send` on
one Connection starting with an empty write queue, flushing the queue in
FIFO order and delivering the wire bytes to the peer makes the peer decode
exactly that sequence, in the order it was sent. -/
theorem send_order_preserved (maxFrame : Nat) (c peer : Connection)
    (fs : List Frame) (hc : c.closed = false) (hq : c.writeQueue = [])
    (hp : peer.closed = false) (hpb : peer.readBuf = [])
    (hwf : ∀ f ∈ fs, FrameWF maxFrame f) :
    (Connection.onReadable maxFrame peer ((c.sendAll fs).flushBytes)).2 = fs := by
  have hqf : (c.sendAll fs).writeQueue = fs := by
    have h := sendAll_writeQueue fs c hc
    rw [hq] at h
    simpa using h.1
  have hwire : (c.sendAll fs).flushBytes = wireOf fs := by
    simp only [Connection.flushBytes, wireOf, hqf]
    rfl
  have hdrain := drain_wireOf maxFrame fs hwf (wireOf fs).length
    (wireOf_length_ge fs)
  rw [hwire]
  simp [Connection.onReadable, hp, hpb, hdrain]

/-- Witness for C2: three frames sent in order 1, 2, 3 are decoded by the
peer in order 1, 2, 3. -/
theorem send_order_preserved_witness :
    (Connection.onReadable 100 ⟨false, none, [], [], false⟩
        ((Connection.sendAll ⟨false, none, [], [], false⟩
          [⟨1, [10]⟩, ⟨2, []⟩, ⟨3, [5, 6, 7]⟩]).flushBytes)).2 =
      [⟨1, [10]⟩, ⟨2, []⟩, ⟨3, [5, 6, 7]⟩] :=
  send_order_preserved 100 ⟨false, none, [], [], false⟩
    ⟨false, none, [], [], false⟩ [⟨1, [10]⟩, ⟨2, []⟩, ⟨3, [5, 6, 7]⟩]
    rfl rfl rfl rfl (by decide)

/-- Claim C3: closing a Connection resolves every unresolved PendingRequest
associated with it exactly once with `ConnectionClosed` — already-resolved
requests keep their write-once slot untouched, afterwards no request on the
connection is unresolved — and no response frame arriving after the close
is dispatched. -/
theorem close_resolves_pending (s : DispState) (c : Nat) (p : PendingReq) :
    (p ∈ s.pending → p.connId = c → p.result = none →
      { p with result := some ROutcome.connectionClosed } ∈
        (closeConn s c).pending) ∧
    (p ∈ s.pending → p.result.isSome = true → p ∈ (closeConn s c).pending) ∧
    (p ∈ (closeConn s c).pending → p.connId = c → p.result.isSome = true) ∧
    (∀ reqId payload, onResponse (closeConn s c) c reqId payload =
      closeConn s c) := by
  refine ⟨?_, ?_, ?_, ?_⟩
  · intro hp hcid hres
    simp only [closeConn, List.mem_map]
    exact ⟨p, hp, by rw [if_pos ⟨hcid, hres⟩]⟩
  · intro hp hres
    simp only [closeConn, List.mem_map]
    refine ⟨p, hp, ?_⟩
    rw [if_neg]
    intro hand
    rw [hand.2] at hres
    simp at hres
  · intro hp hcid
    simp only [closeConn, List.mem_map] at hp
    obtain ⟨q, hq, hqp⟩ := hp
    by_cases hcond : q.connId = c ∧ q.result = none
    · rw [if_pos hcond] at hqp
      rw [← hqp]
      rfl
    · rw [if_neg hcond] at hqp
      subst hqp
      cases hres : q.result with
      | none => exact absurd ⟨hcid, hres⟩ hcond
      | some v => simp [Option.isSome, hres]
  · intro reqId payload
    simp [onResponse, closeConn]

/-- Witness for C3 on a table with one unresolved and one resolved request
on connection 7 and one unresolved request on connection 8. -/
theorem close_resolves_pending_witness :
    ((⟨1, 7, none⟩ : PendingReq) ∈
        (⟨[⟨1, 7, none⟩, ⟨2, 7, some (ROutcome.success [1])⟩, ⟨3, 8, none⟩],
          [], []⟩ : DispState).pending →
      (⟨1, 7, none⟩ : PendingReq).connId = 7 →
      (⟨1, 7, none⟩ : PendingReq).result = none →
      ({ (⟨1, 7, none⟩ : PendingReq) with
          result := some ROutcome.connectionClosed } : PendingReq) ∈
        (closeConn ⟨[⟨1, 7, none⟩, ⟨2, 7, some (ROutcome.success [1])⟩,
          ⟨3, 8, none⟩], [], []⟩ 7).pending) ∧
    ((⟨1, 7, none⟩ : PendingReq) ∈
        (⟨[⟨1, 7, none⟩, ⟨2, 7, some (ROutcome.success [1])⟩, ⟨3, 8, none⟩],
          [], []⟩ : DispState).pending →
      (⟨1, 7, none⟩ : PendingReq).result.isSome = true →
      (⟨1, 7, none⟩ : PendingReq) ∈
        (closeConn ⟨[⟨1, 7, none⟩, ⟨2, 7, some (ROutcome.success [1])⟩,
          ⟨3, 8, none⟩], [], []⟩ 7).pending) ∧
    ((⟨1, 7, none⟩ : PendingReq) ∈
        (closeConn ⟨[⟨1, 7, none⟩, ⟨2, 7, some (ROutcome.success [1])⟩,
          ⟨3, 8, none⟩], [], []⟩ 7).pending →
      (⟨1, 7, none⟩ : PendingReq).connId = 7 →
      (⟨1, 7, none⟩ : PendingReq).result.isSome = true) ∧
    (∀ reqId payload,
      onResponse (closeConn ⟨[⟨1, 7, none⟩,
        ⟨2, 7, some (ROutcome.success [1])⟩, ⟨3, 8, none⟩], [], []⟩ 7)
        7 reqId payload =
      closeConn ⟨[⟨1, 7, none⟩, ⟨2, 7, some (ROutcome.success [1])⟩,
        ⟨3, 8, none⟩], [], []⟩ 7) :=
  close_resolves_pending
    ⟨[⟨1, 7, none⟩, ⟨2, 7, some (ROutcome.success [1])⟩, ⟨3, 8, none⟩], [], []⟩
    7 ⟨1, 7, none⟩

theorem callStep_frozen (deadline myId : Nat) (s : CallState)
    (ev : Nat × DEvent) (h : s.result.isSome = true) :
    callStep deadline myId s ev = s := by
  obtain ⟨r, d⟩ := s
  cases r with
  | none => simp at h
  | some v => rfl

theorem foldl_callStep_frozen (deadline myId : Nat)
    (l : List (Nat × DEvent)) (s : CallState) (h : s.result.isSome = true) :
    l.foldl (callStep deadline myId) s = s := by
  induction l with
  | nil => rfl
  | cons ev l ih =>
    rw [List.foldl_cons, callStep_frozen deadline myId s ev h]
    exact ih

/-- Claim C6: for every `call()` whose matching response does not arrive
before the timeout elapses, the result is `Timeout`, resolved no later than
the deadline plus the Reactor's scheduling slack (given that some event is
delivered within that slack of the deadline), and every later response
carrying that requestId is discarded: nothing more is delivered to the
caller and further events leave the call state unchanged. -/
theorem call_timeout_resolution (deadline slack myId : Nat)
    (trace : List (Nat × DEvent))
    (hmono : trace.Pairwise (fun a b => a.1 ≤ b.1))
    (hnoresp : ∀ t p, (t, DEvent.resp myId p) ∈ trace → deadline ≤ t)
    (hfire : ∃ ev ∈ trace, deadline ≤ ev.1 ∧ ev.1 ≤ deadline + slack) :
    ∃ tR, deadline ≤ tR ∧ tR ≤ deadline + slack ∧
      (runCall deadline myId trace).result = some (ROutcome.timeout, tR) ∧
      (runCall deadline myId trace).delivered = [] ∧
      ∀ extra : List (Nat × DEvent),
        runCall deadline myId (trace ++ extra) = runCall deadline myId trace := by
  revert hmono hnoresp hfire
  induction trace with
  | nil =>
    intro _ _ hfire
    simp at hfire
  | cons ev rest ih =>
    intro hmono hnoresp hfire
    obtain ⟨t, e⟩ := ev
    obtain ⟨hhead, htail⟩ := List.pairwise_cons.mp hmono
    by_cases hd : deadline ≤ t
    · have ht : t ≤ deadline + slack := by
        obtain ⟨ev2, hev2, hd2, hs2⟩ := hfire
        rcases List.mem_cons.mp hev2 with h1 | h1
        · rw [h1] at hs2
          exact hs2
        · have := hhead ev2 h1
          omega
      have hstep : callStep deadline myId ⟨none, []⟩ (t, e) =
          ⟨some (ROutcome.timeout, t), []⟩ := by
        simp [callStep, hd]
      refine ⟨t, hd, ht, ?_, ?_, ?_⟩
      · simp only [runCall, List.foldl_cons, hstep,
          foldl_callStep_frozen deadline myId rest
            ⟨some (ROutcome.timeout, t), []⟩ rfl]
      · simp only [runCall, List.foldl_cons, hstep,
          foldl_callStep_frozen deadline myId rest
            ⟨some (ROutcome.timeout, t), []⟩ rfl]
      · intro extra
        simp only [runCall, List.cons_append, List.foldl_cons, hstep,
          foldl_callStep_frozen deadline myId (rest ++ extra)
            ⟨some (ROutcome.timeout, t), []⟩ rfl,
          foldl_callStep_frozen deadline myId rest
            ⟨some (ROutcome.timeout, t), []⟩ rfl]
    · have hstep : callStep deadline myId ⟨none, []⟩ (t, e) = ⟨none, []⟩ := by
        cases e with
        | tick => simp [callStep, hd]
        | resp id p =>
          by_cases hid : id = myId
          · subst hid
            exact absurd (hnoresp t p (List.mem_cons_self _ _)) hd
          · simp [callStep, hd, hid]
      have hfire2 : ∃ ev ∈ rest, deadline ≤ ev.1 ∧ ev.1 ≤ deadline + slack := by
        obtain ⟨ev2, hev2, hd2, hs2⟩ := hfire
        rcases List.mem_cons.mp hev2 with h1 | h1
        · rw [h1] at hd2
          exact absurd hd2 hd
        · exact ⟨ev2, h1, hd2, hs2⟩
      have hnoresp2 : ∀ t2 p, (t2, DEvent.resp myId p) ∈ rest → deadline ≤ t2 :=
        fun t2 p hm => hnoresp t2 p (List.mem_cons_of_mem _ hm)
      obtain ⟨tR, h1, h2, h3, h4, h5⟩ := ih htail hnoresp2 hfire2
      refine ⟨tR, h1, h2, ?_, ?_, ?_⟩
      · simp only [runCall, List.foldl_cons, hstep]
        exact h3
      · simp only [runCall, List.foldl_cons, hstep]
        exact h4
      · intro extra
        simp only [runCall, List.cons_append, List.foldl_cons, hstep]
        exact h5 extra

/-- Witness for C6: deadline 5, slack 3, request id 1; a foreign response at
time 2, a reactor tick at time 6, a late matching response at time 9. -/
theorem call_timeout_resolution_witness :
    ∃ tR, 5 ≤ tR ∧ tR ≤ 5 + 3 ∧
      (runCall 5 1 [(2, DEvent.resp 2 [7]), (6, DEvent.tick),
        (9, DEvent.resp 1 [42])]).result = some (ROutcome.timeout, tR) ∧
      (runCall 5 1 [(2, DEvent.resp 2 [7]), (6, DEvent.tick),
        (9, DEvent.resp 1 [42])]).delivered = [] ∧
      ∀ extra : List (Nat × DEvent),
        runCall 5 1 ([(2, DEvent.resp 2 [7]), (6, DEvent.tick),
          (9, DEvent.resp 1 [42])] ++ extra) =
        runCall 5 1 [(2, DEvent.resp 2 [7]), (6, DEvent.tick),
          (9, DEvent.resp 1 [42])] :=
  call_timeout_resolution 5 3 1
    [(2, DEvent.resp 2 [7]), (6, DEvent.tick), (9, DEvent.resp 1 [42])]
    (by simp)
    (by
      intro t p hm
      rcases List.mem_cons.mp hm with h | hm
      · simp at h
      rcases List.mem_cons.mp hm with h | hm
      · simp at h
      rcases List.mem_cons.mp hm with h | hm
      · rw [Prod.mk.injEq] at h
        obtain ⟨h1, h2⟩ := h
        omega
      · simp at hm)
    ⟨(6, DEvent.tick), by simp, by decide, by decide⟩
